import Mathlib

/-!
# Verification of `beluga::DifferentialDriveModel`

Shallow embedding of `beluga/include/beluga/motion/differential_drive_model.hpp`
(a sampled odometry motion model for a differential drive robot) over the real
numbers, together with proofs of the specified properties.

Modelling choices:
* `Sophus::SO2d` (a unit complex number) is modelled as `Real.Angle`
  (the additive circle `ℝ / 2πℤ`): the constructor `SO2d{θ}` is the coercion
  `ℝ → Real.Angle`, the group product is angle addition, `inverse()` is
  negation, and `log()` is `Real.Angle.toReal`, which lands in `(-π, π]`
  exactly as `atan2` of the stored unit complex number does.
* `Sophus::SE2d` is a rotation together with a translation vector in `ℝ × ℝ`;
  the group product is `(R₁, t₁) · (R₂, t₂) = (R₁R₂, t₁ + R₁ t₂)`.
* `std::atan2(y, x)` is `Complex.arg ⟨x, y⟩`, which agrees with the C
  convention (`atan2(0, 0) = 0`, range `(-π, π]`).
* Drawing from `std::normal_distribution` with parameters `(mean, stddev)`
  given a standard normal variate `z` yields `mean + stddev * z`; the sampler
  takes the three variates it consumes as explicit arguments.
* The stateful class becomes explicit state passing: `update_motion` maps a
  model state and a pose to a new model state.
-/

noncomputable section

namespace Beluga

/-- Model of `Sophus::SO2d`: planar rotations, i.e. angles modulo `2π`. -/
abbrev SO2 : Type := Real.Angle

/-- Model of `Sophus::SO2d::log()`: the rotation angle in `(-π, π]`. -/
def SO2.log (r : SO2) : ℝ := Real.Angle.toReal r

/-- Action of a planar rotation on a 2D vector (`SO2d * Eigen::Vector2d`). -/
def SO2.act (r : SO2) (v : ℝ × ℝ) : ℝ × ℝ :=
  (Real.Angle.cos r * v.1 - Real.Angle.sin r * v.2,
   Real.Angle.sin r * v.1 + Real.Angle.cos r * v.2)

/-- Model of `Sophus::SE2d`: a planar rigid transform, rotation part plus translation. -/
structure SE2 where
  so2 : SO2
  translation : ℝ × ℝ

/-- The SE(2) group product: `(R₁, t₁) · (R₂, t₂) = (R₁R₂, t₁ + R₁ t₂)`. -/
def SE2.mul (a b : SE2) : SE2 :=
  ⟨a.so2 + b.so2, a.translation + SO2.act a.so2 b.translation⟩

/-- Model of `std::atan2(y, x)`, as the argument of the complex number `x + y i`. -/
def atan2 (y x : ℝ) : ℝ := Complex.arg ⟨x, y⟩

/-- Euclidean norm of a 2D vector (`Eigen::Vector2d::norm()`). -/
def vnorm (v : ℝ × ℝ) : ℝ := Real.sqrt (v.1 ^ 2 + v.2 ^ 2)

/-- Model of `std::normal_distribution<double>::param_type`: a (mean, stddev) pair. -/
structure DistributionParam where
  mean : ℝ
  stddev : ℝ

/-- Drawing a normal variate with parameters `p` from a standard normal
variate `z`. -/
def DistributionParam.sample (p : DistributionParam) (z : ℝ) : ℝ :=
  p.mean + p.stddev * z

/-- Model of `beluga::DifferentialDriveModelParam`: the four noise coefficients and the
in-place rotation detection threshold. -/
structure DifferentialDriveModelParam where
  rotation_noise_from_rotation : ℝ
  rotation_noise_from_translation : ℝ
  translation_noise_from_translation : ℝ
  translation_noise_from_rotation : ℝ
  distance_threshold : ℝ

/-- The state of a `beluga::DifferentialDriveModel` instance: configuration
parameters, the optional last observed pose, and the three distribution
parameter pairs. -/
structure DifferentialDriveModel where
  params : DifferentialDriveModelParam
  last_pose : Option SE2
  first_rotation_params : DistributionParam
  second_rotation_params : DistributionParam
  translation_params : DistributionParam

namespace DifferentialDriveModel

/-- The constructor `DifferentialDriveModel(params)`: stores the parameters
and leaves `last_pose_` empty and all distribution parameters `{0.0, 0.0}`. -/
def init (params : DifferentialDriveModelParam) : DifferentialDriveModel :=
  ⟨params, none, ⟨0, 0⟩, ⟨0, 0⟩, ⟨0, 0⟩⟩

/-- The local constant `translation` of `update_motion`:
`pose.translation() - last_pose_.value().translation()`. -/
def motion_translation (last_pose pose : SE2) : ℝ × ℝ :=
  pose.translation - last_pose.translation

/-- The local constant `distance` of `update_motion`: `translation.norm()`. -/
def motion_distance (last_pose pose : SE2) : ℝ :=
  vnorm (motion_translation last_pose pose)

/-- The local constant `first_rotation` of `update_motion`:
`SO2d{atan2(ty, tx)} * previous_orientation.inverse()` when the distance
exceeds the threshold, `SO2d{0.0}` otherwise. -/
def first_rotation (params : DifferentialDriveModelParam) (last_pose pose : SE2) : SO2 :=
  if motion_distance last_pose pose > params.distance_threshold
  then ((atan2 (motion_translation last_pose pose).2 (motion_translation last_pose pose).1 : ℝ) : SO2)
         + (-last_pose.so2)
  else ((0 : ℝ) : SO2)

/-- The local constant `second_rotation` of `update_motion`:
`current_orientation * previous_orientation.inverse() * first_rotation.inverse()`. -/
def second_rotation (params : DifferentialDriveModelParam) (last_pose pose : SE2) : SO2 :=
  pose.so2 + (-last_pose.so2) + (-(first_rotation params last_pose pose))

/-- The local constant `combined_rotation` of `update_motion`:
`first_rotation * second_rotation`. -/
def combined_rotation (params : DifferentialDriveModelParam) (last_pose pose : SE2) : SO2 :=
  first_rotation params last_pose pose + second_rotation params last_pose pose

/-- The static helper `rotation_variance`: square of the smaller in magnitude
of the angle of the rotation and of the rotation composed with a half turn. -/
def rotation_variance (rotation : SO2) : ℝ :=
  let flipped_rotation : SO2 := rotation + ((Real.pi : ℝ) : SO2)
  let delta := min |SO2.log rotation| |SO2.log flipped_rotation|
  delta * delta

/-- Model of `DifferentialDriveModel::update_motion(pose)`: on a non-first call,
decompose the relative motion into rotation/translation/rotation, publish the
three distribution parameter pairs, and store the pose; on a first call just
store the pose. -/
def update_motion (m : DifferentialDriveModel) (pose : SE2) : DifferentialDriveModel :=
  match m.last_pose with
  | none => { m with last_pose := some pose }
  | some last_pose =>
      { m with
        first_rotation_params :=
          ⟨SO2.log (first_rotation m.params last_pose pose),
           Real.sqrt
             (m.params.rotation_noise_from_rotation
                * rotation_variance (first_rotation m.params last_pose pose)
              + m.params.rotation_noise_from_translation
                * (motion_distance last_pose pose * motion_distance last_pose pose))⟩
        translation_params :=
          ⟨motion_distance last_pose pose,
           Real.sqrt
             (m.params.translation_noise_from_translation
                * (motion_distance last_pose pose * motion_distance last_pose pose)
              + m.params.translation_noise_from_rotation
                * rotation_variance (combined_rotation m.params last_pose pose))⟩
        second_rotation_params :=
          ⟨SO2.log (second_rotation m.params last_pose pose),
           Real.sqrt
             (m.params.rotation_noise_from_rotation
                * rotation_variance (second_rotation m.params last_pose pose)
              + m.params.rotation_noise_from_translation
                * (motion_distance last_pose pose * motion_distance last_pose pose))⟩
        last_pose := some pose }

/-- Model of `DifferentialDriveModel::apply_motion(state, gen)`, with the three
standard normal variates it draws (for the first rotation, the translation and
the second rotation, in the order the code draws them) passed explicitly:
`state * SE2d{first_rotation, (0, 0)} * SE2d{second_rotation, (d, 0)}`. -/
def apply_motion (m : DifferentialDriveModel) (state : SE2) (z1 z2 z3 : ℝ) : SE2 :=
  let first_rotation : SO2 := ((m.first_rotation_params.sample z1 : ℝ) : SO2)
  let translation : ℝ × ℝ := (m.translation_params.sample z2, 0)
  let second_rotation : SO2 := ((m.second_rotation_params.sample z3 : ℝ) : SO2)
  SE2.mul (SE2.mul state ⟨first_rotation, (0, 0)⟩) ⟨second_rotation, translation⟩

/-- Model of `DifferentialDriveModel::latest_motion_update()`: the stored last pose. -/
def latest_motion_update (m : DifferentialDriveModel) : Option SE2 := m.last_pose

end DifferentialDriveModel

/-- The spec's primitive `Rotate(θ)`: a pure rotation. -/
def Rotate (θ : ℝ) : SE2 := ⟨((θ : ℝ) : SO2), (0, 0)⟩

/-- The spec's primitive `Translate(x, y)`: a pure translation. -/
def Translate (x y : ℝ) : SE2 := ⟨((0 : ℝ) : SO2), (x, y)⟩

namespace DifferentialDriveModel

/-! ### Shared helper lemmas -/

/-- Unfolding `update_motion` on a first call (no stored pose). -/
theorem update_motion_none (m : DifferentialDriveModel) (pose : SE2)
    (h : m.last_pose = none) :
    m.update_motion pose = { m with last_pose := some pose } := by
  rcases m with ⟨pa, olp, f, s, t⟩
  simp only at h
  subst h
  rfl

/-- Unfolding `update_motion` on a non-first call (a pose is stored). -/
theorem update_motion_some (m : DifferentialDriveModel) (lp pose : SE2)
    (h : m.last_pose = some lp) :
    m.update_motion pose =
      { m with
        first_rotation_params :=
          ⟨SO2.log (first_rotation m.params lp pose),
           Real.sqrt
             (m.params.rotation_noise_from_rotation
                * rotation_variance (first_rotation m.params lp pose)
              + m.params.rotation_noise_from_translation
                * (motion_distance lp pose * motion_distance lp pose))⟩
        translation_params :=
          ⟨motion_distance lp pose,
           Real.sqrt
             (m.params.translation_noise_from_translation
                * (motion_distance lp pose * motion_distance lp pose)
              + m.params.translation_noise_from_rotation
                * rotation_variance (combined_rotation m.params lp pose))⟩
        second_rotation_params :=
          ⟨SO2.log (second_rotation m.params lp pose),
           Real.sqrt
             (m.params.rotation_noise_from_rotation
                * rotation_variance (second_rotation m.params lp pose)
              + m.params.rotation_noise_from_translation
                * (motion_distance lp pose * motion_distance lp pose))⟩
        last_pose := some pose } := by
  rcases m with ⟨pa, olp, f, s, t⟩
  simp only at h
  subst h
  rfl

/-- The function `update_motion` unconditionally stores the pose it was given. -/
theorem update_motion_last_pose (m : DifferentialDriveModel) (pose : SE2) :
    (m.update_motion pose).last_pose = some pose := by
  rcases m with ⟨pa, olp, f, s, t⟩
  rcases olp with _ | lp <;> rfl

/-- The function `update_motion` never changes the configuration parameters. -/
theorem update_motion_params (m : DifferentialDriveModel) (pose : SE2) :
    (m.update_motion pose).params = m.params := by
  rcases m with ⟨pa, olp, f, s, t⟩
  rcases olp with _ | lp <;> rfl

end DifferentialDriveModel

open DifferentialDriveModel

/-! ### Claims -/

/-- C1: for every particle pose `state` and every triple of standard normal
variates, `apply_motion` returns exactly the spec's three-factor composition
`state ∘ Rotate(f) ∘ Translate(d, 0) ∘ Rotate(s)` on the sampled values, i.e.
the code's two-factor product `state * SE2{f, (0,0)} * SE2{s, (d,0)}` equals
the rotation/translation/rotation composition. -/
theorem claim_C1 (m : DifferentialDriveModel) (state : SE2) (z1 z2 z3 : ℝ) :
    m.apply_motion state z1 z2 z3 =
      SE2.mul
        (SE2.mul (SE2.mul state (Rotate (m.first_rotation_params.sample z1)))
          (Translate (m.translation_params.sample z2) 0))
        (Rotate (m.second_rotation_params.sample z3)) := by
  obtain ⟨R, tx, ty⟩ := state
  simp [DifferentialDriveModel.apply_motion, SE2.mul, Rotate, Translate, SO2.act,
    Real.Angle.coe_zero, SE2.mk.injEq, Prod.ext_iff]

/-- C5: `rotation_variance r` is the square of the smaller in magnitude of the
angles of `r` and of `r` composed with a half turn; it is invariant under
composition with a half turn, and vanishes at the identity rotation. -/
theorem claim_C5 :
    (∀ r : SO2,
        rotation_variance r
          = min |SO2.log r| |SO2.log (r + ((Real.pi : ℝ) : SO2))| ^ 2)
    ∧ (∀ θ : SO2,
        rotation_variance θ = rotation_variance (θ + ((Real.pi : ℝ) : SO2)))
    ∧ rotation_variance (0 : SO2) = 0 := by
  refine ⟨fun r => ?_, fun θ => ?_, ?_⟩
  · simp only [rotation_variance]
    ring
  · simp only [rotation_variance, SO2.log]
    have h2 : θ + ((Real.pi : ℝ) : SO2) + ((Real.pi : ℝ) : SO2) = θ := by
      rw [add_assoc, Real.Angle.coe_pi_add_coe_pi, add_zero]
    rw [h2, min_comm]
  · simp only [rotation_variance, SO2.log, zero_add, Real.Angle.toReal_zero,
      Real.Angle.toReal_pi, abs_zero]
    rw [abs_of_pos Real.pi_pos, min_eq_left Real.pi_pos.le, mul_zero]

/-- C6: the very first `update_motion` call on a fresh instance leaves all
three noise parameters at their initial zero state and afterwards
`latest_motion_update` returns exactly the pose that was passed in. -/
theorem claim_C6 (p : DifferentialDriveModelParam) (pose : SE2) :
    ((init p).update_motion pose).first_rotation_params = ⟨0, 0⟩
    ∧ ((init p).update_motion pose).second_rotation_params = ⟨0, 0⟩
    ∧ ((init p).update_motion pose).translation_params = ⟨0, 0⟩
    ∧ ((init p).update_motion pose).latest_motion_update = some pose :=
  ⟨rfl, rfl, rfl, rfl⟩

/-- C7: every `update_motion` call overwrites the stored last pose, so
`latest_motion_update` returns it afterwards; on a fresh instance
`latest_motion_update` returns `none` (and, being a pure projection, has no
side effects). -/
theorem claim_C7 :
    (∀ (m : DifferentialDriveModel) (pose : SE2),
        (m.update_motion pose).latest_motion_update = some pose)
    ∧ ∀ p : DifferentialDriveModelParam,
        (init p).latest_motion_update = none := by
  refine ⟨fun m pose => ?_, fun p => rfl⟩
  rcases m with ⟨pa, olp, f, s, t⟩
  rcases olp with _ | lp <;> rfl

/-- C10: before any `update_motion` call, and equally after exactly one call,
all three noise parameters are `(0, 0)`, so `apply_motion` returns the state
unchanged for every random draw: the sampled motion is the identity. -/
theorem claim_C10 (p : DifferentialDriveModelParam) (pose state : SE2)
    (z1 z2 z3 : ℝ) :
    (init p).apply_motion state z1 z2 z3 = state
    ∧ ((init p).update_motion pose).apply_motion state z1 z2 z3 = state := by
  obtain ⟨R, tx, ty⟩ := state
  constructor <;>
  · simp [init, DifferentialDriveModel.update_motion,
      DifferentialDriveModel.apply_motion, DistributionParam.sample, SE2.mul,
      SO2.act, Real.Angle.coe_zero, SE2.mk.injEq, Prod.ext_iff]

/-- C2: on every non-first `update_motion` call the three published
distribution parameters follow the spec's table: means are the decomposition
values (angles for the rotations, the distance for the translation) and each
standard deviation is the square root of the weighted sum of a
rotation-variance term and a squared-distance term, with the translation term
using the combined rotation `first_rotation ∘ second_rotation`. -/
theorem claim_C2 (m : DifferentialDriveModel) (lp pose : SE2)
    (h : m.last_pose = some lp) :
    (m.update_motion pose).first_rotation_params
        = ⟨SO2.log (first_rotation m.params lp pose),
           Real.sqrt
             (m.params.rotation_noise_from_rotation
                * rotation_variance (first_rotation m.params lp pose)
              + m.params.rotation_noise_from_translation
                * motion_distance lp pose ^ 2)⟩
    ∧ (m.update_motion pose).translation_params
        = ⟨motion_distance lp pose,
           Real.sqrt
             (m.params.translation_noise_from_translation
                * motion_distance lp pose ^ 2
              + m.params.translation_noise_from_rotation
                * rotation_variance
                    (first_rotation m.params lp pose
                      + second_rotation m.params lp pose))⟩
    ∧ (m.update_motion pose).second_rotation_params
        = ⟨SO2.log (second_rotation m.params lp pose),
           Real.sqrt
             (m.params.rotation_noise_from_rotation
                * rotation_variance (second_rotation m.params lp pose)
              + m.params.rotation_noise_from_translation
                * motion_distance lp pose ^ 2)⟩ := by
  rw [update_motion_some m lp pose h]
  refine ⟨?_, ?_, ?_⟩ <;> simp [combined_rotation, pow_two]

/-- C2 witness: on a concrete model holding a stored pose, the published
first-rotation parameters of a zero motion evaluate to mean `0`, std `0`. -/
theorem claim_C2_witness :
    ((⟨⟨0, 0, 0, 0, 1 / 100⟩, some ⟨((0 : ℝ) : SO2), (0, 0)⟩,
        ⟨0, 0⟩, ⟨0, 0⟩, ⟨0, 0⟩⟩ :
      DifferentialDriveModel).update_motion
        ⟨((0 : ℝ) : SO2), (0, 0)⟩).first_rotation_params
      = ⟨0, 0⟩ := by
  have h := (claim_C2
    ⟨⟨0, 0, 0, 0, 1 / 100⟩, some ⟨((0 : ℝ) : SO2), (0, 0)⟩,
      ⟨0, 0⟩, ⟨0, 0⟩, ⟨0, 0⟩⟩
    ⟨((0 : ℝ) : SO2), (0, 0)⟩ ⟨((0 : ℝ) : SO2), (0, 0)⟩ rfl).1
  rw [h]
  have hd : motion_distance (⟨((0 : ℝ) : SO2), (0, 0)⟩ : SE2)
      ⟨((0 : ℝ) : SO2), (0, 0)⟩ = 0 := by
    simp [motion_distance, motion_translation, vnorm]
  have hf : first_rotation ⟨0, 0, 0, 0, 1 / 100⟩
      (⟨((0 : ℝ) : SO2), (0, 0)⟩ : SE2) ⟨((0 : ℝ) : SO2), (0, 0)⟩ = 0 := by
    unfold first_rotation
    rw [if_neg]
    · exact Real.Angle.coe_zero
    · rw [hd]; norm_num
  rw [hf, hd]
  simp [SO2.log, Real.Angle.toReal_zero]

/-- C3: on every non-first `update_motion` call, the first rotation of the
decomposition is `SO2(atan2(dy, dx)) ∘ (last orientation)⁻¹` when the distance
strictly exceeds the threshold and the zero rotation otherwise, and the second
rotation is `(new orientation) ∘ (last orientation)⁻¹ ∘ (first rotation)⁻¹`;
the published means are the angles of these rotations. -/
theorem claim_C3 (m : DifferentialDriveModel) (lp pose : SE2)
    (h : m.last_pose = some lp) :
    ((m.update_motion pose).first_rotation_params.mean
        = SO2.log (first_rotation m.params lp pose))
    ∧ (m.params.distance_threshold < motion_distance lp pose →
        first_rotation m.params lp pose
          = ((atan2 (pose.translation.2 - lp.translation.2)
                (pose.translation.1 - lp.translation.1) : ℝ) : SO2)
              + (-lp.so2))
    ∧ (motion_distance lp pose ≤ m.params.distance_threshold →
        first_rotation m.params lp pose = 0)
    ∧ ((m.update_motion pose).second_rotation_params.mean
        = SO2.log (second_rotation m.params lp pose))
    ∧ second_rotation m.params lp pose
        = pose.so2 + (-lp.so2) + (-(first_rotation m.params lp pose)) := by
  refine ⟨?_, ?_, ?_, ?_, rfl⟩
  · rw [update_motion_some m lp pose h]
  · intro hgt
    unfold first_rotation
    rw [if_pos hgt]
    simp [motion_translation]
  · intro hle
    unfold first_rotation
    rw [if_neg (not_lt.mpr hle)]
    exact Real.Angle.coe_zero
  · rw [update_motion_some m lp pose h]

/-- C3 witness: on a concrete model holding a stored pose, with a zero motion
(distance below the threshold), the first rotation evaluates to the zero
rotation. -/
theorem claim_C3_witness :
    first_rotation ⟨0, 0, 0, 0, 1 / 100⟩
      (⟨((0 : ℝ) : SO2), (0, 0)⟩ : SE2) ⟨((0 : ℝ) : SO2), (0, 0)⟩ = 0 := by
  have h := claim_C3
    ⟨⟨0, 0, 0, 0, 1 / 100⟩, some ⟨((0 : ℝ) : SO2), (0, 0)⟩,
      ⟨0, 0⟩, ⟨0, 0⟩, ⟨0, 0⟩⟩
    ⟨((0 : ℝ) : SO2), (0, 0)⟩ ⟨((0 : ℝ) : SO2), (0, 0)⟩ rfl
  refine h.2.2.1 ?_
  have hd : motion_distance (⟨((0 : ℝ) : SO2), (0, 0)⟩ : SE2)
      ⟨((0 : ℝ) : SO2), (0, 0)⟩ = 0 := by
    simp [motion_distance, motion_translation, vnorm]
  rw [hd]
  norm_num

/-- C8: for every update whose translation distance is at or below the
threshold, the published means are: first rotation `0` (degenerate branch),
second rotation the relative rotation wrapped to `(-π, π]`, translation the
(small) distance; and in the concrete scenario
`params = {0.1, 0.1, 0.1, 0.1, threshold = 0.01}` with pose sequence
`(0,0,0) → (1,0,0) → (1,0,π/2)`, after the last update the translation mean
is `0`, the second-rotation mean is `π/2` and the first-rotation mean is `0`. -/
theorem claim_C8 :
    (∀ (m : DifferentialDriveModel) (lp pose : SE2),
        m.last_pose = some lp →
        motion_distance lp pose ≤ m.params.distance_threshold →
        (m.update_motion pose).first_rotation_params.mean = 0
        ∧ (m.update_motion pose).second_rotation_params.mean
            = Real.Angle.toReal (pose.so2 + (-lp.so2))
        ∧ (m.update_motion pose).translation_params.mean
            = motion_distance lp pose)
    ∧ ((((DifferentialDriveModel.init
            ⟨1 / 10, 1 / 10, 1 / 10, 1 / 10, 1 / 100⟩).update_motion
              ⟨((0 : ℝ) : SO2), (0, 0)⟩).update_motion
              ⟨((0 : ℝ) : SO2), (1, 0)⟩).update_motion
              ⟨((Real.pi / 2 : ℝ) : SO2), (1, 0)⟩).translation_params.mean = 0
    ∧ ((((DifferentialDriveModel.init
            ⟨1 / 10, 1 / 10, 1 / 10, 1 / 10, 1 / 100⟩).update_motion
              ⟨((0 : ℝ) : SO2), (0, 0)⟩).update_motion
              ⟨((0 : ℝ) : SO2), (1, 0)⟩).update_motion
              ⟨((Real.pi / 2 : ℝ) : SO2), (1, 0)⟩).second_rotation_params.mean
        = Real.pi / 2
    ∧ ((((DifferentialDriveModel.init
            ⟨1 / 10, 1 / 10, 1 / 10, 1 / 10, 1 / 100⟩).update_motion
              ⟨((0 : ℝ) : SO2), (0, 0)⟩).update_motion
              ⟨((0 : ℝ) : SO2), (1, 0)⟩).update_motion
              ⟨((Real.pi / 2 : ℝ) : SO2), (1, 0)⟩).first_rotation_params.mean
        = 0 := by
  have general :
      ∀ (m : DifferentialDriveModel) (lp pose : SE2),
        m.last_pose = some lp →
        motion_distance lp pose ≤ m.params.distance_threshold →
        (m.update_motion pose).first_rotation_params.mean = 0
        ∧ (m.update_motion pose).second_rotation_params.mean
            = Real.Angle.toReal (pose.so2 + (-lp.so2))
        ∧ (m.update_motion pose).translation_params.mean
            = motion_distance lp pose := by
    intro m lp pose h hle
    have hf : first_rotation m.params lp pose = 0 := by
      unfold first_rotation
      rw [if_neg (not_lt.mpr hle)]
      exact Real.Angle.coe_zero
    rw [update_motion_some m lp pose h]
    refine ⟨?_, ?_, rfl⟩
    · simp [hf, SO2.log, Real.Angle.toReal_zero]
    · simp [second_rotation, hf, SO2.log]
  refine ⟨general, ?_⟩
  have h2 : (((DifferentialDriveModel.init
      (⟨1 / 10, 1 / 10, 1 / 10, 1 / 10, 1 / 100⟩ :
        DifferentialDriveModelParam)).update_motion
        ⟨((0 : ℝ) : SO2), (0, 0)⟩).update_motion
        ⟨((0 : ℝ) : SO2), (1, 0)⟩).last_pose
      = some ⟨((0 : ℝ) : SO2), (1, 0)⟩ := update_motion_last_pose _ _
  have hp2 : (((DifferentialDriveModel.init
      (⟨1 / 10, 1 / 10, 1 / 10, 1 / 10, 1 / 100⟩ :
        DifferentialDriveModelParam)).update_motion
        ⟨((0 : ℝ) : SO2), (0, 0)⟩).update_motion
        ⟨((0 : ℝ) : SO2), (1, 0)⟩).params
      = ⟨1 / 10, 1 / 10, 1 / 10, 1 / 10, 1 / 100⟩ := by
    rw [update_motion_params, update_motion_params]
    rfl
  have hd : motion_distance (⟨((0 : ℝ) : SO2), (1, 0)⟩ : SE2)
      ⟨((Real.pi / 2 : ℝ) : SO2), (1, 0)⟩ = 0 := by
    simp [motion_distance, motion_translation, vnorm]
  obtain ⟨ha, hb, hc⟩ := general _ _ _ h2
    (by rw [hd, hp2]; norm_num)
  refine ⟨?_, ?_, ?_⟩
  · rw [hc, hd]
  · rw [hb]
    simp [Real.Angle.toReal_pi_div_two]
  · exact ha

/-- C8 witness: the degenerate-branch statement applied to a concrete model
with a stored pose and a zero motion. -/
theorem claim_C8_witness :
    ((⟨⟨1 / 10, 1 / 10, 1 / 10, 1 / 10, 1 / 100⟩,
        some ⟨((0 : ℝ) : SO2), (0, 0)⟩, ⟨0, 0⟩, ⟨0, 0⟩, ⟨0, 0⟩⟩ :
      DifferentialDriveModel).update_motion
        ⟨((0 : ℝ) : SO2), (0, 0)⟩).first_rotation_params.mean = 0 := by
  refine (claim_C8.1
    ⟨⟨1 / 10, 1 / 10, 1 / 10, 1 / 10, 1 / 100⟩,
      some ⟨((0 : ℝ) : SO2), (0, 0)⟩, ⟨0, 0⟩, ⟨0, 0⟩, ⟨0, 0⟩⟩
    ⟨((0 : ℝ) : SO2), (0, 0)⟩ ⟨((0 : ℝ) : SO2), (0, 0)⟩ rfl ?_).1
  have hd : motion_distance (⟨((0 : ℝ) : SO2), (0, 0)⟩ : SE2)
      ⟨((0 : ℝ) : SO2), (0, 0)⟩ = 0 := by
    simp [motion_distance, motion_translation, vnorm]
  rw [hd]
  norm_num

/-- C9: construction performs no validation and stores the noise coefficients
verbatim, including negative ones; with a negative coefficient there is a
motion for which the weighted std² sum handed to the square root is negative
(here `alpha2 = -1` and a unit translation make the first-rotation std² sum
equal `-1`). -/
theorem claim_C9 :
    (∀ p : DifferentialDriveModelParam,
        (DifferentialDriveModel.init p).params = p)
    ∧ (⟨0, -1, 0, 0, 1 / 100⟩ :
          DifferentialDriveModelParam).rotation_noise_from_rotation
        * rotation_variance
            (first_rotation ⟨0, -1, 0, 0, 1 / 100⟩
              ⟨((0 : ℝ) : SO2), (0, 0)⟩ ⟨((0 : ℝ) : SO2), (1, 0)⟩)
      + (⟨0, -1, 0, 0, 1 / 100⟩ :
          DifferentialDriveModelParam).rotation_noise_from_translation
        * (motion_distance (⟨((0 : ℝ) : SO2), (0, 0)⟩ : SE2)
              ⟨((0 : ℝ) : SO2), (1, 0)⟩
            * motion_distance (⟨((0 : ℝ) : SO2), (0, 0)⟩ : SE2)
              ⟨((0 : ℝ) : SO2), (1, 0)⟩)
      < 0 := by
  refine ⟨fun p => rfl, ?_⟩
  have hd : motion_distance (⟨((0 : ℝ) : SO2), (0, 0)⟩ : SE2)
      ⟨((0 : ℝ) : SO2), (1, 0)⟩ = 1 := by
    simp [motion_distance, motion_translation, vnorm]
  show (0 : ℝ)
      * rotation_variance
          (first_rotation ⟨0, -1, 0, 0, 1 / 100⟩
            ⟨((0 : ℝ) : SO2), (0, 0)⟩ ⟨((0 : ℝ) : SO2), (1, 0)⟩)
      + (-1)
        * (motion_distance (⟨((0 : ℝ) : SO2), (0, 0)⟩ : SE2)
              ⟨((0 : ℝ) : SO2), (1, 0)⟩
            * motion_distance (⟨((0 : ℝ) : SO2), (0, 0)⟩ : SE2)
              ⟨((0 : ℝ) : SO2), (1, 0)⟩)
      < 0
  rw [hd]
  norm_num

/-- C4 counterexample: with `threshold = 0.01`, moving from the origin pose
to `(0, 0.005, 0)` (a small sideways translation, below the threshold) and
then recomposing the mean decomposition from the last pose yields
`(0.005, 0, 0)`, not `(0, 0.005, 0)`: the degenerate branch applies the
distance along the previous heading, so the round trip fails. -/
theorem claim_C4_counterexample :
    (((DifferentialDriveModel.init
          ⟨0, 0, 0, 0, 1 / 100⟩).update_motion
            ⟨((0 : ℝ) : SO2), (0, 0)⟩).update_motion
            ⟨((0 : ℝ) : SO2), (0, 1 / 200)⟩).apply_motion
        ⟨((0 : ℝ) : SO2), (0, 0)⟩ 0 0 0
      ≠ ⟨((0 : ℝ) : SO2), (0, 1 / 200)⟩ := by
  have h1 : ((DifferentialDriveModel.init
      (⟨0, 0, 0, 0, 1 / 100⟩ : DifferentialDriveModelParam)).update_motion
        ⟨((0 : ℝ) : SO2), (0, 0)⟩).last_pose
      = some ⟨((0 : ℝ) : SO2), (0, 0)⟩ := update_motion_last_pose _ _
  rw [update_motion_some _ _ _ h1]
  have hd : motion_distance (⟨((0 : ℝ) : SO2), (0, 0)⟩ : SE2)
      ⟨((0 : ℝ) : SO2), (0, 1 / 200)⟩ = 1 / 200 := by
    unfold motion_distance motion_translation vnorm
    rw [show ((0 : ℝ), (1 / 200 : ℝ)) - ((0 : ℝ), (0 : ℝ))
        = ((0 : ℝ), (1 / 200 : ℝ)) by norm_num]
    rw [show ((0 : ℝ) ^ 2 + (1 / 200 : ℝ) ^ 2) = (1 / 200 : ℝ) ^ 2 by norm_num]
    rw [Real.sqrt_sq (by norm_num)]
  have hp1 : ((DifferentialDriveModel.init
      (⟨0, 0, 0, 0, 1 / 100⟩ : DifferentialDriveModelParam)).update_motion
        ⟨((0 : ℝ) : SO2), (0, 0)⟩).params
      = ⟨0, 0, 0, 0, 1 / 100⟩ := by
    rw [update_motion_params]; rfl
  have hf : first_rotation ((DifferentialDriveModel.init
      (⟨0, 0, 0, 0, 1 / 100⟩ : DifferentialDriveModelParam)).update_motion
        ⟨((0 : ℝ) : SO2), (0, 0)⟩).params
      (⟨((0 : ℝ) : SO2), (0, 0)⟩ : SE2) ⟨((0 : ℝ) : SO2), (0, 1 / 200)⟩ = 0 := by
    unfold first_rotation
    rw [if_neg]
    · exact Real.Angle.coe_zero
    · rw [hd, hp1]; norm_num
  have hs : second_rotation ((DifferentialDriveModel.init
      (⟨0, 0, 0, 0, 1 / 100⟩ : DifferentialDriveModelParam)).update_motion
        ⟨((0 : ℝ) : SO2), (0, 0)⟩).params
      (⟨((0 : ℝ) : SO2), (0, 0)⟩ : SE2) ⟨((0 : ℝ) : SO2), (0, 1 / 200)⟩ = 0 := by
    unfold second_rotation
    rw [hf]
    simp
  simp only [DifferentialDriveModel.apply_motion, DistributionParam.sample,
    mul_zero, add_zero]
  rw [hf, hs, hd]
  simp only [SO2.log, Real.Angle.toReal_zero, Real.Angle.coe_zero, SE2.mul,
    SO2.act, Real.Angle.cos_zero, Real.Angle.sin_zero, Prod.mk_add_mk,
    SE2.mk.injEq, Prod.mk.injEq]
  norm_num

/-- C4, amended: the round trip holds whenever the translation distance is
strictly above the distance threshold (the non-degenerate branch) or is
exactly zero; composing the three mean values of the decomposition (that is,
sampling with all standard normal variates equal to `0`, so each draw returns
its mean — exactly the std = 0 composition) maps the last pose to the new
pose. In the remaining degenerate case `0 < distance ≤ threshold` the round
trip can fail (see the counterexample). -/
theorem claim_C4 (m : DifferentialDriveModel) (lp pose : SE2)
    (h : m.last_pose = some lp)
    (hd : m.params.distance_threshold < motion_distance lp pose
          ∨ motion_distance lp pose = 0) :
    (m.update_motion pose).apply_motion lp 0 0 0 = pose := by
  obtain ⟨lR, lx, ly⟩ := lp
  obtain ⟨pR, px, py⟩ := pose
  rw [update_motion_some _ _ _ h]
  by_cases h0 : motion_distance (⟨lR, (lx, ly)⟩ : SE2) ⟨pR, (px, py)⟩ = 0
  · -- zero motion: the translation vector vanishes, both branches round-trip
    have hsum : (px - lx) ^ 2 + (py - ly) ^ 2 = 0 := by
      have h0' := h0
      unfold motion_distance motion_translation vnorm at h0'
      rw [Prod.mk_sub_mk] at h0'
      exact (Real.sqrt_eq_zero (by positivity)).mp h0'
    have hx : px = lx := by nlinarith [sq_nonneg (px - lx), sq_nonneg (py - ly)]
    have hy : py = ly := by nlinarith [sq_nonneg (px - lx), sq_nonneg (py - ly)]
    subst hx; subst hy
    simp only [DifferentialDriveModel.apply_motion, DistributionParam.sample,
      mul_zero, add_zero, SO2.log, Real.Angle.coe_toReal, second_rotation,
      SE2.mul, SO2.act, h0, Prod.mk_add_mk, SE2.mk.injEq, Prod.mk.injEq,
      mul_zero, sub_zero, zero_add]
    exact ⟨by abel, trivial⟩
  · have hgt : m.params.distance_threshold
        < motion_distance (⟨lR, (lx, ly)⟩ : SE2) ⟨pR, (px, py)⟩ :=
      hd.resolve_right h0
    have hF : first_rotation m.params (⟨lR, (lx, ly)⟩ : SE2) ⟨pR, (px, py)⟩
        = ((atan2 (py - ly) (px - lx) : ℝ) : SO2) + (-lR) := by
      unfold first_rotation
      rw [if_pos hgt]
      simp [motion_translation]
    have hzne : (⟨px - lx, py - ly⟩ : ℂ) ≠ 0 := by
      intro hzz
      apply h0
      rw [Complex.ext_iff] at hzz
      simp only [Complex.zero_re, Complex.zero_im] at hzz
      unfold motion_distance motion_translation vnorm
      rw [Prod.mk_sub_mk]
      simp [hzz.1, hzz.2]
    have habs0 : Complex.abs ⟨px - lx, py - ly⟩ ≠ 0 := Complex.abs.ne_zero hzne
    have habs : motion_distance (⟨lR, (lx, ly)⟩ : SE2) ⟨pR, (px, py)⟩
        = Complex.abs ⟨px - lx, py - ly⟩ := by
      unfold motion_distance motion_translation vnorm
      rw [Prod.mk_sub_mk, Complex.abs_apply, Complex.normSq_apply]
      ring_nf
    have hcos : Real.cos (atan2 (py - ly) (px - lx))
        = (px - lx) / Complex.abs ⟨px - lx, py - ly⟩ := Complex.cos_arg hzne
    have hsin : Real.sin (atan2 (py - ly) (px - lx))
        = (py - ly) / Complex.abs ⟨px - lx, py - ly⟩ :=
      Complex.sin_arg ⟨px - lx, py - ly⟩
    simp only [DifferentialDriveModel.apply_motion, DistributionParam.sample,
      mul_zero, add_zero, SO2.log, Real.Angle.coe_toReal, second_rotation,
      SE2.mul, hF]
    have hang : lR + (((atan2 (py - ly) (px - lx) : ℝ) : SO2) + (-lR))
        = ((atan2 (py - ly) (px - lx) : ℝ) : SO2) := by abel
    rw [hang]
    simp only [SO2.act, Real.Angle.cos_coe, Real.Angle.sin_coe, hcos, hsin,
      mul_zero, sub_zero, add_zero, zero_add, Prod.mk_add_mk, SE2.mk.injEq,
      Prod.mk.injEq]
    refine ⟨by abel, ?_, ?_⟩
    · rw [habs]
      field_simp
    · rw [habs]
      field_simp

/-- C4 witness: the amended round trip evaluated on a concrete model: a unit
forward translation from the origin pose (distance `1`, above the threshold
`0.01`) is decomposed and recomposed back to exactly the new pose. -/
theorem claim_C4_witness :
    ((⟨⟨0, 0, 0, 0, 1 / 100⟩, some ⟨((0 : ℝ) : SO2), (0, 0)⟩,
        ⟨0, 0⟩, ⟨0, 0⟩, ⟨0, 0⟩⟩ :
      DifferentialDriveModel).update_motion
        ⟨((0 : ℝ) : SO2), (1, 0)⟩).apply_motion
      ⟨((0 : ℝ) : SO2), (0, 0)⟩ 0 0 0
      = ⟨((0 : ℝ) : SO2), (1, 0)⟩ := by
  refine claim_C4 _ _ _ rfl (Or.inl ?_)
  have hd : motion_distance (⟨((0 : ℝ) : SO2), (0, 0)⟩ : SE2)
      ⟨((0 : ℝ) : SO2), (1, 0)⟩ = 1 := by
    simp [motion_distance, motion_translation, vnorm]
  show (1 / 100 : ℝ) < motion_distance (⟨((0 : ℝ) : SO2), (0, 0)⟩ : SE2)
    ⟨((0 : ℝ) : SO2), (1, 0)⟩
  rw [hd]
  norm_num

end Beluga
